import Mathlib

/-!
Shallow embedding of the expense tracker (src/expense.py), a pandas/Excel
CRUD application.  The persisted Excel container holds two sheets:
Expenses (Date, Category, Description, Amount; possibly an extra persisted
YearMonth column left over from earlier saves) and Budgets (month, year,
budget).  Dates are modelled as timestamps (calendar day plus a
seconds-within-day component, since pandas keeps full timestamp
precision); amounts and budgets are modelled as rationals standing for the
decimal values Python floats carry in this program; an unparseable Date
cell is modelled as `none` (the result of `pd.to_datetime(..., errors="coerce")`
being NaT).  Python exceptions are modelled with `Except`.
-/

namespace ExpenseTracker

/-- Timestamp: calendar day plus seconds within the day (pandas datetimes
keep full precision; a bare date input corresponds to `sec = 0`). -/
structure Timestamp where
  y : Nat
  m : Nat
  d : Nat
  sec : Nat
deriving DecidableEq, Repr

/-- Raw persisted Expenses row.  `date = none` models a Date cell that
`pd.to_datetime(..., errors="coerce")` turns into NaT. -/
structure RawExpRow where
  date : Option Timestamp
  category : String
  description : String
  amount : ℚ
deriving DecidableEq, Repr

/-- Persisted Expenses sheet: its rows, plus whether the sheet carries the
derived YearMonth column (written by earlier saves of a loaded frame). -/
structure ExpensesSheet where
  rows : List RawExpRow
  hasYearMonth : Bool
deriving DecidableEq, Repr

/-- Persisted Budgets row (column names already lowercased by load_budgets). -/
structure BudgetRow where
  month : String
  year : Int
  budget : ℚ
deriving DecidableEq, Repr

/-- The whole persisted container (both sheets). -/
structure Store where
  expenses : ExpensesSheet
  budgets : List BudgetRow
deriving DecidableEq, Repr

/-- Loaded (in-memory) expense row, as produced by load_expenses: parsed
date, float amount, and the derived YearMonth string. -/
structure ExpRow where
  date : Timestamp
  category : String
  description : String
  amount : ℚ
  yearMonth : String
deriving DecidableEq, Repr

/-- Python exception kinds raised by the code paths we model. -/
inductive PyErr where
  | valueError
  | attributeError
deriving DecidableEq, Repr

instance {ε α : Type} [DecidableEq ε] [DecidableEq α] : DecidableEq (Except ε α) := fun
  | .error a, .error b =>
    if h : a = b then .isTrue (by rw [h]) else .isFalse (by simp [h])
  | .ok a, .ok b =>
    if h : a = b then .isTrue (by rw [h]) else .isFalse (by simp [h])
  | .error _, .ok _ => .isFalse (by simp)
  | .ok _, .error _ => .isFalse (by simp)

/-- Month number to English month name, as `strftime("%B")` /
`Series.dt.month_name()` produce. -/
def monthName : Nat → String
  | 1 => "January"
  | 2 => "February"
  | 3 => "March"
  | 4 => "April"
  | 5 => "May"
  | 6 => "June"
  | 7 => "July"
  | 8 => "August"
  | 9 => "September"
  | 10 => "October"
  | 11 => "November"
  | 12 => "December"
  | _ => ""

/-- Left-pad a numeral with zeros to width `k`. -/
def padZeros (n : Nat) (k : Nat) : String :=
  let s := toString n
  if s.length ≥ k then s else String.mk (List.replicate (k - s.length) '0') ++ s.data.asString

/-- Date rendering `strftime("%Y-%m-%d")`. -/
def dateStr (t : Timestamp) : String :=
  padZeros t.y 4 ++ "-" ++ padZeros t.m 2 ++ "-" ++ padZeros t.d 2

/-- Derived YearMonth string: `Date.dt.to_period("M").astype(str)` gives
"YYYY-MM". -/
def ymStr (t : Timestamp) : String :=
  padZeros t.y 4 ++ "-" ++ padZeros t.m 2

/-- Smallest exponent k ≤ 20 with d ∣ 10^k (d a denominator of a decimal
rational); 20 is a safe cap for the float-precision values the program
handles. -/
def decExp (d : Nat) : Nat :=
  ((List.range 21).find? (fun k => 10 ^ k % d = 0)).getD 20

/-- Python `str(float)` of a nonnegative decimal rational: integer part, a
dot, and the fractional digits with no trailing zeros but at least one
digit (so `str(1500.0) = "1500.0"`). -/
def pyFloatReprNN (q : ℚ) : String :=
  let n := q.num.natAbs
  let d := q.den
  let k := decExp d
  let digits := n * 10 ^ k / d
  let ip := digits / 10 ^ k
  let fp := digits % 10 ^ k
  toString ip ++ "." ++ (if k = 0 then "0" else padZeros fp k)

/-- Python `str(float)` for the decimal rationals modelling this program's
floats. -/
def pyFloatRepr (q : ℚ) : String :=
  if q < 0 then "-" ++ pyFloatReprNN (-q) else pyFloatReprNN q

/-- ASCII lower-casing of one character (`str.lower` on the month names
this program handles). -/
def asciiLower (c : Char) : Char :=
  if 65 ≤ c.toNat ∧ c.toNat ≤ 90 then Char.ofNat (c.toNat + 32) else c

/-- ASCII upper-casing of one character. -/
def asciiUpper (c : Char) : Char :=
  if 97 ≤ c.toNat ∧ c.toNat ≤ 122 then Char.ofNat (c.toNat - 32) else c

/-- Python `str.lower` (over the ASCII month names the program uses). -/
def strLower (s : String) : String := String.mk (s.data.map asciiLower)

/-- Whitespace as `str.strip` removes it. -/
def isStripSpace (c : Char) : Bool :=
  c = ' ' || c = '\t' || c = '\n' || c = '\r'

/-- Python `str.strip`: drop whitespace from both ends. -/
def strStrip (s : String) : String :=
  String.mk (((s.data.dropWhile isStripSpace).reverse.dropWhile isStripSpace).reverse)

/-- Parse one raw row as load_expenses does: a row whose date coerced to
NaT is dropped; otherwise the YearMonth field is computed from the date. -/
def parseRow (r : RawExpRow) : Option ExpRow :=
  r.date.map fun t => ⟨t, r.category, r.description, r.amount, ymStr t⟩

/-- Result of load_expenses: the surviving rows, whether the frame has the
YearMonth column, and whether the Date column was converted to datetime
dtype (the `if not df.empty` guard skips the conversion on an empty sheet,
leaving Date as object dtype, on which the `.dt` accessor later raises). -/
structure LoadedExpenses where
  rows : List ExpRow
  hasYearMonth : Bool
  dateConverted : Bool
deriving DecidableEq, Repr

/-- load_expenses: reads the Expenses sheet (the duplicate-column dedup is
a no-op here since our sheets never carry duplicate column names); on a
non-empty sheet it coerces Date (dropping NaT rows), casts Amount to
float, and attaches the recomputed YearMonth column; on an empty sheet the
frame is returned as read (no conversion, columns as persisted). -/
def load_expenses (sheet : ExpensesSheet) : LoadedExpenses :=
  if sheet.rows = [] then ⟨[], sheet.hasYearMonth, false⟩
  else ⟨sheet.rows.filterMap parseRow, true, true⟩

/-- Writing a loaded row back to the sheet keeps Date, Category,
Description, Amount (YearMonth presence is tracked at sheet level). -/
def saveExpRow (r : ExpRow) : RawExpRow :=
  ⟨some r.date, r.category, r.description, r.amount⟩

/-- The Expenses sheet produced by saving a loaded frame: its rows written
back, and the YearMonth column persisted exactly when the loaded frame has
it (to_excel writes every column of the frame). -/
def saveLoaded (l : LoadedExpenses) : ExpensesSheet :=
  ⟨l.rows.map saveExpRow, l.hasYearMonth⟩

/-- load_expenses as a storage operation: `pd.read_excel` only reads, so
the store is returned unchanged next to the loaded frame. -/
def load_expenses_op (st : Store) : Store × LoadedExpenses :=
  (st, load_expenses st.expenses)

/-- add_expense: loads expenses, builds the new row — `pd.to_datetime(date)`
raises on an unparseable date and `float(amount)` raises on a non-numeric
amount, both before any save — appends it, and saves both sheets
(budgets reloaded unchanged). -/
def add_expense (st : Store) (date : Option Timestamp) (category description : String)
    (amount : Option ℚ) : Except PyErr Store :=
  let l := load_expenses st.expenses
  match date with
  | none => .error .valueError
  | some t =>
    match amount with
    | none => .error .valueError
    | some a =>
      .ok { expenses := ⟨l.rows.map saveExpRow ++ [⟨some t, category, description, a⟩],
                         l.hasYearMonth⟩,
            budgets := st.budgets }

/-- An exception aborts the Streamlit callback before save_dataframes runs,
so the persisted container is untouched on failure. -/
def runAdd (st : Store) (date : Option Timestamp) (category description : String)
    (amount : Option ℚ) : Store :=
  match add_expense st date category description amount with
  | .ok st' => st'
  | .error _ => st

/-- Label of an expense row as delete_expense computes it:
`f"{DateStr} | {Category} | {Description} | ₹{Amount}"`, where `{Amount}`
is Python's default float rendering. -/
def expLabel (r : ExpRow) : String :=
  dateStr r.date ++ " | " ++ r.category ++ " | " ++ r.description ++ " | ₹"
    ++ pyFloatRepr r.amount

/-- Label of a raw row, defined when its date parses. -/
def rawExpLabel (r : RawExpRow) : Option String :=
  (parseRow r).map expLabel

/-- Comma insertion over reversed digits: a comma before every completed
group of three. -/
def commaRev : List Char → Nat → List Char
  | [], _ => []
  | c :: cs, k =>
    if k ≠ 0 ∧ k % 3 = 0 then ',' :: c :: commaRev cs (k + 1)
    else c :: commaRev cs (k + 1)

/-- Thousands grouping of a natural number (`f"{n:,}"`). -/
def groupThousands (n : Nat) : String :=
  String.mk ((commaRev (toString n).data.reverse 0).reverse)

/-- Modelled from the spec: "Currency formatting uses a fixed symbol prefix
with two decimal places and thousands separators" (`f"₹{x:,.2f}"`) — the
formatting the spec asserts delete labels use.  Stated for the nonnegative
decimal amounts the program handles; the integer rounding here agrees with
Python on every exactly-representable two-decimal value. -/
def specCurrency (q : ℚ) : String :=
  let n := q.num.natAbs
  let d := q.den
  let cents := (n * 100 + d / 2) / d
  "₹" ++ groupThousands (cents / 100) ++ "." ++ padZeros (cents % 100) 2

/-- Modelled from the spec: the expense label as the spec describes it,
with the amount rendered by the two-decimal thousands-separated currency
format (compared against `expLabel`, the label the code computes). -/
def specExpLabel (r : ExpRow) : String :=
  dateStr r.date ++ " | " ++ r.category ++ " | " ++ r.description ++ " | "
    ++ specCurrency r.amount

/-- delete_expense: loads expenses; `df["Date"].dt.strftime` raises
AttributeError when the Date column was not converted to datetime dtype
(empty persisted sheet); otherwise labels every row, keeps the rows whose
label differs from `selected`, drops the helper columns, and saves both
sheets. -/
def delete_expense (st : Store) (selected : String) : Except PyErr Store :=
  let l := load_expenses st.expenses
  if l.dateConverted then
    .ok { expenses := ⟨(l.rows.filter (fun r => !(expLabel r == selected))).map saveExpRow,
                       l.hasYearMonth⟩,
          budgets := st.budgets }
  else .error .attributeError

/-- Month normalization used by add_or_update_budget: `strip().lower()`. -/
def normMonth (s : String) : String := strLower (strStrip s)

/-- First-match in-place budget update: scan the rows in storage order and
overwrite the budget of the first row whose normalized month and year
match; `none` when no row matches. -/
def updFirst (mc : String) (y : Int) (b : ℚ) : List BudgetRow → Option (List BudgetRow)
  | [] => none
  | r :: rs =>
    if normMonth r.month = mc ∧ r.year = y then some ({ r with budget := b } :: rs)
    else (updFirst mc y b rs).map (r :: ·)

/-- Budgets-table transformation of add_or_update_budget: update the first
matching row in place, or append `{month: mc, year, budget}` when no row
matches. -/
def upsertBudgets (mc : String) (y : Int) (b : ℚ) (bs : List BudgetRow) : List BudgetRow :=
  match updFirst mc y b bs with
  | some bs' => bs'
  | none => bs ++ [⟨mc, y, b⟩]

/-- add_or_update_budget: normalizes the month, updates the first matching
row or appends a new one, and saves both sheets (expenses reloaded and
written back). -/
def add_or_update_budget (st : Store) (month : String) (year : Int) (budget : ℚ) : Store :=
  { expenses := saveLoaded (load_expenses st.expenses),
    budgets := upsertBudgets (normMonth month) year budget st.budgets }

/-- Python `str.capitalize`: first character upper, the rest lower. -/
def pyCapitalize (s : String) : String :=
  match s.data with
  | [] => ""
  | c :: cs => String.mk (asciiUpper c :: cs.map asciiLower)

/-- Budget label as delete_budget computes it:
`f"{month.capitalize()} {year} - ₹{budget}"`. -/
def budLabel (b : BudgetRow) : String :=
  pyCapitalize b.month ++ " " ++ toString b.year ++ " - ₹" ++ pyFloatRepr b.budget

/-- delete_budget: loads budgets and labels every row.  On an empty Budgets
sheet `DataFrame.apply(..., axis=1)` returns the empty frame itself (the
label lambda raises on the NaN probe row pandas feeds it), and assigning
that multi-column frame to the single Label column raises ValueError;
otherwise the rows whose label differs from `selected` are kept and both
sheets are saved (expenses reloaded and written back). -/
def delete_budget (st : Store) (selected : String) : Except PyErr Store :=
  if st.budgets = [] then .error .valueError
  else
    .ok { expenses := saveLoaded (load_expenses st.expenses),
          budgets := st.budgets.filter (fun b => !(budLabel b == selected)) }

/-- Sidebar budget summary: filter the loaded expenses to today's month
name and year, sum their amounts, look the budget up by lowercase month
name and year (first match; 0 when absent), and report
(budget, spent, remaining = budget - spent). -/
def current_period_summary (expenses : List ExpRow) (budgets : List BudgetRow)
    (today : Timestamp) : ℚ × ℚ × ℚ :=
  let currentMonth := monthName today.m
  let cur := expenses.filter fun r =>
    decide (monthName r.date.m = currentMonth ∧ r.date.y = today.y)
  let spent := (cur.map (·.amount)).sum
  let brows := budgets.filter fun b =>
    decide (b.month = strLower currentMonth ∧ b.year = (today.y : Int))
  let currentBudget := match brows with
    | [] => 0
    | b :: _ => b.budget
  (currentBudget, spent, currentBudget - spent)

/-- Insertion step of an amount-descending sort. -/
def insertAmtDesc (r : ExpRow) : List ExpRow → List ExpRow
  | [] => [r]
  | x :: xs => if r.amount ≤ x.amount then x :: insertAmtDesc r xs else r :: x :: xs

/-- Pandas `sort_values(by="Amount", ascending=False)`. -/
def sortAmtDesc : List ExpRow → List ExpRow
  | [] => []
  | x :: xs => insertAmtDesc x (sortAmtDesc xs)

/-- Daily view: keep the rows whose Date equals `pd.to_datetime(selected_date)`
— the full timestamp at midnight of the picked day — sorted by amount
descending, together with the sum of their amounts. -/
def daily_view (expenses : List ExpRow) (d : Timestamp) : List ExpRow × ℚ :=
  let rows := expenses.filter fun r => decide (r.date = d)
  (sortAmtDesc rows, (rows.map (·.amount)).sum)

/-- Total amount of one category over a list of rows
(`groupby("Category")["Amount"].sum()` at that category). -/
def catTotal (l : List ExpRow) (c : String) : ℚ :=
  ((l.filter fun r => decide (r.category = c)).map (·.amount)).sum

/-- Lexicographic character-list comparison (string `<`). -/
def charListLt : List Char → List Char → Bool
  | [], [] => false
  | [], _ :: _ => true
  | _ :: _, [] => false
  | a :: as, b :: bs =>
    if a.toNat < b.toNat then true
    else if b.toNat < a.toNat then false
    else charListLt as bs

/-- String `<` (code-point lexicographic, as both Python and pandas order
the category names). -/
def strLt (a b : String) : Bool := charListLt a.data b.data

/-- Ascending insertion of a string (groupby sorts its group keys). -/
def insertStr (s : String) : List String → List String
  | [] => [s]
  | x :: xs => if strLt s x then s :: x :: xs else x :: insertStr s xs

/-- Ascending string sort. -/
def sortStrs : List String → List String
  | [] => []
  | x :: xs => insertStr x (sortStrs xs)

/-- The distinct categories of the rows in groupby order (sorted ascending). -/
def sortedCats (l : List ExpRow) : List String :=
  sortStrs (l.map (·.category)).dedup

/-- Scan for the first key attaining the maximal total, as `idxmax` does
over the grouped sums (replace the current best only on a strictly larger
total). -/
def pickTop (l : List ExpRow) : String → List String → String
  | best, [] => best
  | best, c :: cs => pickTop l (if catTotal l best < catTotal l c then c else best) cs

/-- `filtered.groupby("Category")["Amount"].sum().idxmax()`. -/
def topCategory (l : List ExpRow) : String :=
  match sortedCats l with
  | [] => ""
  | c :: cs => pickTop l c cs

/-- Total amount of the rows of one YearMonth
(`monthly_totals.get(ym, 0)`: 0 when the period has no rows). -/
def ymSpent (l : List ExpRow) (ym : String) : ℚ :=
  ((l.filter fun r => decide (r.yearMonth = ym)).map (·.amount)).sum

/-- First matching budget by (lowercase month name, year), 0 when absent. -/
def budgetLookup (budgets : List BudgetRow) (mn : String) (y : Int) : ℚ :=
  match budgets.filter (fun b => decide (b.month = mn ∧ b.year = y)) with
  | [] => 0
  | b :: _ => b.budget

/-- Split a character list at a separator (Python `str.split(sep)`). -/
def splitOnChar (sep : Char) : List Char → List (List Char)
  | [] => [[]]
  | c :: cs =>
    match splitOnChar sep cs with
    | [] => [[]]
    | w :: ws => if c = sep then [] :: w :: ws else (c :: w) :: ws

/-- Digit run to a number (`none` unless the run is non-empty and all
digits), the part of Python `int(...)` these period strings exercise. -/
def digitsToNat? (cs : List Char) : Option Nat :=
  if cs = [] then none
  else cs.foldl (fun acc c =>
    acc.bind fun n => if c.isDigit then some (n * 10 + (c.toNat - '0'.toNat)) else none)
    (some 0)

/-- Parse a "YYYY-MM" period into (year, lowercase month name):
`year, month = ym.split("-")`, `int(year)`,
`datetime.strptime(month, "%m").strftime("%B").lower()`.  `none` models the
ValueError those calls raise on malformed periods (unreachable from the UI,
whose periods come from the YearMonth column). -/
def monthFromYm (ym : String) : Option (Int × String) :=
  match splitOnChar '-' ym.data with
  | [ys, ms] =>
    match digitsToNat? ys, digitsToNat? ms with
    | some y, some m =>
      if 1 ≤ m ∧ m ≤ 12 then some ((y : Int), strLower (monthName m)) else none
    | _, _ => none
  | _ => none

/-- One budget-vs-actual row of the Monthly Overview summary. -/
structure BVA where
  period : String
  budget : ℚ
  spent : ℚ
  remaining : ℚ
deriving DecidableEq, Repr

/-- Budget-vs-actual row for one selected period: budget looked up by
parsed month name and year (0 when absent), spent from the per-period
totals, remaining = budget - spent.  (The `none` branch models the
ValueError strptime raises on a malformed period and is unreachable for
periods drawn from the YearMonth column.) -/
def bvaRow (budgets : List BudgetRow) (filtered : List ExpRow) (ym : String) : BVA :=
  match monthFromYm ym with
  | some (y, mn) =>
    let b := budgetLookup budgets mn y
    let s := ymSpent filtered ym
    ⟨ym, b, s, b - s⟩
  | none => ⟨ym, 0, 0, 0⟩

/-- Monthly Overview: filter the loaded expenses to the selected periods;
on an empty filter the overview is not rendered (`none`); otherwise report
the top category and one budget-vs-actual row per selected period. -/
def monthly_overview (df : List ExpRow) (budgets : List BudgetRow)
    (selected : List String) : Option (String × List BVA) :=
  let filtered := df.filter fun r => decide (r.yearMonth ∈ selected)
  if filtered = [] then none
  else some (topCategory filtered, selected.map (bvaRow budgets filtered))

/-- Loaded rows of the spec's monthly-overview example: (2024-03-01, Food,
100), (2024-03-02, Food, 50), (2024-03-03, Transport, 30). -/
def ex8 : List ExpRow :=
  [⟨⟨2024, 3, 1, 0⟩, "Food", "", 100, "2024-03"⟩,
   ⟨⟨2024, 3, 2, 0⟩, "Food", "", 50, "2024-03"⟩,
   ⟨⟨2024, 3, 3, 0⟩, "Transport", "", 30, "2024-03"⟩]

/-! Shared lemmas about the load/save round trip. -/

theorem filterMap_parse_save (rows : List RawExpRow) :
    (rows.filterMap parseRow).map saveExpRow
      = rows.filter (fun r => r.date.isSome) := by
  induction rows with
  | nil => rfl
  | cons r rs ih =>
    cases hr : r.date with
    | none => simp [List.filterMap_cons, parseRow, hr, List.filter_cons, ih]
    | some t =>
      cases r with
      | mk rd rc rdsc ra =>
        cases hr
        simp [List.filterMap_cons, parseRow, List.filter_cons, saveExpRow, ih]

theorem load_rows_map_save (sheet : ExpensesSheet) :
    ((load_expenses sheet).rows).map saveExpRow
      = sheet.rows.filter (fun r => r.date.isSome) := by
  by_cases h : sheet.rows = []
  · simp [load_expenses, h]
  · simp [load_expenses, h, filterMap_parse_save]

theorem load_rows_all_parseable (sheet : ExpensesSheet)
    (h : ∀ r ∈ sheet.rows, r.date.isSome = true) :
    ((load_expenses sheet).rows).map saveExpRow = sheet.rows := by
  rw [load_rows_map_save, List.filter_eq_self.mpr h]

theorem mem_map_save_isSome {l : List ExpRow} {r : RawExpRow}
    (h : r ∈ l.map saveExpRow) : r.date.isSome = true := by
  rcases List.mem_map.mp h with ⟨x, _, rfl⟩
  rfl

theorem load_hasYearMonth (sheet : ExpensesSheet) :
    (load_expenses sheet).hasYearMonth
      = (if sheet.rows = [] then sheet.hasYearMonth else true) := by
  by_cases h : sheet.rows = [] <;> simp [load_expenses, h]

theorem load_dateConverted (sheet : ExpensesSheet) :
    (load_expenses sheet).dateConverted = (if sheet.rows = [] then false else true) := by
  by_cases h : sheet.rows = [] <;> simp [load_expenses, h]

theorem load_yearMonth_recomputed (sheet : ExpensesSheet) :
    ∀ r ∈ (load_expenses sheet).rows, r.yearMonth = ymStr r.date := by
  intro r hr
  by_cases h : sheet.rows = []
  · simp [load_expenses, h] at hr
  · simp only [load_expenses, h, if_neg] at hr
    rcases List.mem_filterMap.mp hr with ⟨raw, _, hp⟩
    cases hd : raw.date with
    | none => simp [parseRow, hd] at hp
    | some t =>
      simp [parseRow, hd] at hp
      cases hp
      rfl

/-- C9: every row returned by load_expenses has a successfully parsed date —
the loaded rows written back are exactly the raw rows whose date parses, so
unparseable rows are excluded from the load result (and hence from every
view computed from it) — and the load operation itself leaves the stored
container unchanged. -/
theorem claim_C9 : ∀ st : Store,
    (load_expenses_op st).1 = st
    ∧ ((load_expenses_op st).2.rows.map saveExpRow
        = st.expenses.rows.filter (fun r => r.date.isSome))
    ∧ (∀ raw ∈ st.expenses.rows, raw.date = none →
        ∀ r ∈ (load_expenses_op st).2.rows, saveExpRow r ≠ raw) := by
  intro st
  refine ⟨rfl, load_rows_map_save st.expenses, ?_⟩
  intro raw _ hnone r _ heq
  rw [← heq] at hnone
  simp [saveExpRow] at hnone

/-- C9 witness: the conclusions at a concrete store holding one parseable
and one unparseable row — the load keeps exactly the parseable row and the
unparseable row equals no saved form of a loaded row. -/
theorem claim_C9_witness :
    ((load_expenses_op ⟨⟨[⟨some ⟨2024, 3, 1, 0⟩, "Food", "", 100⟩,
        ⟨none, "Bills", "bad", 7⟩], false⟩, []⟩).2.rows.map saveExpRow
      = [⟨some ⟨2024, 3, 1, 0⟩, "Food", "", 100⟩])
    ∧ (∀ r ∈ (load_expenses_op ⟨⟨[⟨some ⟨2024, 3, 1, 0⟩, "Food", "", 100⟩,
        ⟨none, "Bills", "bad", 7⟩], false⟩, []⟩).2.rows,
      saveExpRow r ≠ ⟨none, "Bills", "bad", 7⟩) := by
  constructor
  · have h := (claim_C9 ⟨⟨[⟨some ⟨2024, 3, 1, 0⟩, "Food", "", 100⟩,
        ⟨none, "Bills", "bad", 7⟩], false⟩, []⟩).2.1
    rw [h]
    decide
  · exact (claim_C9 ⟨⟨[⟨some ⟨2024, 3, 1, 0⟩, "Food", "", 100⟩,
        ⟨none, "Bills", "bad", 7⟩], false⟩, []⟩).2.2
      ⟨none, "Bills", "bad", 7⟩ (by decide) rfl

/-- C10: after any single successful mutation, every persisted Expenses row
has a parseable date — the unparseable rows are removed even when the
mutation targeted another row or the Budgets table, because each mutation
saves the filtered result of load_expenses; for the budget upsert the new
Expenses sheet is literally that filtered table. -/
theorem claim_C10 : ∀ (st st' : Store) (d : Option Timestamp)
    (c ds sel selB m : String) (a : Option ℚ) (y : Int) (b : ℚ),
    (add_expense st d c ds a = .ok st' →
      ∀ r ∈ st'.expenses.rows, r.date.isSome = true)
    ∧ (delete_expense st sel = .ok st' →
      ∀ r ∈ st'.expenses.rows, r.date.isSome = true)
    ∧ ((add_or_update_budget st m y b).expenses.rows
        = st.expenses.rows.filter (fun r => r.date.isSome))
    ∧ (delete_budget st selB = .ok st' →
      ∀ r ∈ st'.expenses.rows, r.date.isSome = true) := by
  intro st st' d c ds sel selB m a y b
  refine ⟨?_, ?_, ?_, ?_⟩
  · intro h r hr
    cases d with
    | none => simp [add_expense] at h
    | some t =>
      cases a with
      | none => simp [add_expense] at h
      | some q =>
        simp only [add_expense, Except.ok.injEq] at h
        subst h
        rcases List.mem_append.mp hr with hl | hr2
        · exact mem_map_save_isSome hl
        · simp at hr2
          subst hr2
          rfl
  · intro h r hr
    by_cases hc : (load_expenses st.expenses).dateConverted
    · simp only [delete_expense, hc, if_true, Except.ok.injEq] at h
      subst h
      exact mem_map_save_isSome hr
    · simp [delete_expense, hc] at h
  · show (saveLoaded (load_expenses st.expenses)).rows = _
    exact load_rows_map_save st.expenses
  · intro h r hr
    by_cases hb : st.budgets = []
    · simp [delete_budget, hb] at h
    · rw [delete_budget, if_neg hb] at h
      injection h with h2
      rw [← h2] at hr
      simp only [saveLoaded] at hr
      exact mem_map_save_isSome hr

/-- C10 witness: deleting a budget from a store whose Expenses sheet holds
an unparseable-date row leaves only parseable rows persisted. -/
theorem claim_C10_witness :
    delete_budget ⟨⟨[⟨none, "Bills", "bad", 7⟩,
        ⟨some ⟨2024, 3, 1, 0⟩, "Food", "", 100⟩], true⟩, [⟨"march", 2024, 200⟩]⟩ "x"
      = .ok ⟨⟨[⟨some ⟨2024, 3, 1, 0⟩, "Food", "", 100⟩], true⟩, [⟨"march", 2024, 200⟩]⟩
    ∧ ∀ r ∈ (⟨⟨[⟨some ⟨2024, 3, 1, 0⟩, "Food", "", 100⟩], true⟩,
        [⟨"march", 2024, 200⟩]⟩ : Store).expenses.rows, r.date.isSome = true := by
  constructor
  · decide
  · exact (claim_C10 ⟨⟨[⟨none, "Bills", "bad", 7⟩,
      ⟨some ⟨2024, 3, 1, 0⟩, "Food", "", 100⟩], true⟩, [⟨"march", 2024, 200⟩]⟩
      ⟨⟨[⟨some ⟨2024, 3, 1, 0⟩, "Food", "", 100⟩], true⟩, [⟨"march", 2024, 200⟩]⟩
      none "" "" "" "x" "" none 0 0).2.2.2 (by decide)

/-- C1 counterexample: starting from a store whose persisted Expenses sheet
has only the four base columns and one row, add_expense writes back a sheet
that does carry the derived YearMonth column, contradicting "never
persisted". -/
theorem claim_C1_ce :
    ((⟨⟨[⟨some ⟨2024, 3, 1, 0⟩, "Food", "", 100⟩], false⟩, []⟩ : Store).expenses.hasYearMonth
        = false)
    ∧ (runAdd ⟨⟨[⟨some ⟨2024, 3, 1, 0⟩, "Food", "", 100⟩], false⟩, []⟩
        (some ⟨2024, 3, 2, 0⟩) "Food" "" (some 5)).expenses.hasYearMonth = true := by
  decide

/-- C1 (amended): a mutation writes the Expenses sheet back with the
derived YearMonth column exactly when the loaded table was non-empty (or
the persisted sheet already carried the column); only a mutation over an
empty loaded table keeps the four base columns.  YearMonth is still
recomputed from the date on every load. -/
theorem claim_C1_amended : ∀ (st st' : Store) (t : Timestamp)
    (c ds sel m : String) (a b : ℚ) (y : Int),
    (st.expenses.rows = [] →
      (runAdd st (some t) c ds (some a)).expenses.hasYearMonth = st.expenses.hasYearMonth
      ∧ (add_or_update_budget st m y b).expenses.hasYearMonth = st.expenses.hasYearMonth)
    ∧ (st.expenses.rows ≠ [] →
      (runAdd st (some t) c ds (some a)).expenses.hasYearMonth = true
      ∧ (add_or_update_budget st m y b).expenses.hasYearMonth = true)
    ∧ (delete_expense st sel = .ok st' → st.expenses.rows ≠ [] →
      st'.expenses.hasYearMonth = true)
    ∧ (∀ r ∈ (load_expenses st.expenses).rows, r.yearMonth = ymStr r.date) := by
  intro st st' t c ds sel m a b y
  refine ⟨?_, ?_, ?_, load_yearMonth_recomputed st.expenses⟩
  · intro h
    constructor
    · simp [runAdd, add_expense, load_hasYearMonth, h]
    · simp [add_or_update_budget, saveLoaded, load_hasYearMonth, h]
  · intro h
    constructor
    · simp [runAdd, add_expense, load_hasYearMonth, h]
    · simp [add_or_update_budget, saveLoaded, load_hasYearMonth, h]
  · intro hdel h
    by_cases hc : (load_expenses st.expenses).dateConverted
    · simp only [delete_expense, hc, if_true, Except.ok.injEq] at hdel
      subst hdel
      simp [load_hasYearMonth, h]
    · simp [delete_expense, hc] at hdel

/-- C1 witness: the amended behaviour at concrete stores — on an empty
sheet add_expense keeps the four columns, on a one-row sheet the budget
upsert persists YearMonth. -/
theorem claim_C1_witness :
    (runAdd ⟨⟨[], false⟩, []⟩ (some ⟨2024, 3, 2, 0⟩) "Food" "" (some 5)).expenses.hasYearMonth
        = false
    ∧ (add_or_update_budget ⟨⟨[⟨some ⟨2024, 3, 1, 0⟩, "Food", "", 100⟩], false⟩, []⟩
        "march" 2024 200).expenses.hasYearMonth = true := by
  constructor
  · exact ((claim_C1_amended ⟨⟨[], false⟩, []⟩ ⟨⟨[], false⟩, []⟩ ⟨2024, 3, 2, 0⟩
      "Food" "" "" "march" 5 200 2024).1 (by decide)).1
  · exact ((claim_C1_amended ⟨⟨[⟨some ⟨2024, 3, 1, 0⟩, "Food", "", 100⟩], false⟩, []⟩
      ⟨⟨[], false⟩, []⟩ ⟨2024, 3, 2, 0⟩ "Food" "" "" "march" 5 200 2024).2.1
      (by decide)).2

theorem load_rows_of_ne {sheet : ExpensesSheet} (h : sheet.rows ≠ []) :
    (load_expenses sheet).rows = sheet.rows.filterMap parseRow := by
  simp [load_expenses, h]

theorem rawExpLabel_save (r : ExpRow) :
    rawExpLabel (saveExpRow r) = some (expLabel r) := by
  simp [rawExpLabel, parseRow, saveExpRow, Option.map_some]
  simp [expLabel]

/-- C5 counterexample: on the empty Expenses table, delete_expense raises
(the `.dt` accessor fails on the unconverted Date column) instead of being
a no-op, although the identifier is vacuously not the label of any row. -/
theorem claim_C5_ce :
    (⟨⟨[], false⟩, []⟩ : Store).expenses.rows = []
    ∧ delete_expense ⟨⟨[], false⟩, []⟩ "anything" = .error .attributeError := by
  decide

/-- C5 (amended): for a store whose Expenses sheet is non-empty with every
date parseable and whose Budgets sheet is non-empty, deleting an
identifier that is no row's label is a no-op on the rows of both tables:
both operations succeed and write back the same rows (the save still
occurs — the rewritten Expenses sheet carries the YearMonth column). -/
theorem claim_C5_amended : ∀ (st : Store) (selE selB : String),
    st.expenses.rows ≠ [] →
    (∀ r ∈ st.expenses.rows, r.date.isSome = true) →
    st.budgets ≠ [] →
    (∀ r ∈ (load_expenses st.expenses).rows, expLabel r ≠ selE) →
    (∀ b ∈ st.budgets, budLabel b ≠ selB) →
    delete_expense st selE = .ok ⟨⟨st.expenses.rows, true⟩, st.budgets⟩
    ∧ delete_budget st selB = .ok ⟨⟨st.expenses.rows, true⟩, st.budgets⟩ := by
  intro st selE selB h1 h2 h3 h4 h5
  have hload : ((load_expenses st.expenses).rows).map saveExpRow = st.expenses.rows :=
    load_rows_all_parseable _ h2
  have hym : (load_expenses st.expenses).hasYearMonth = true := by
    rw [load_hasYearMonth, if_neg h1]
  have hc : (load_expenses st.expenses).dateConverted = true := by
    rw [load_dateConverted, if_neg h1]
  constructor
  · rw [delete_expense, if_pos hc]
    have hfe : (load_expenses st.expenses).rows.filter (fun r => !(expLabel r == selE))
        = (load_expenses st.expenses).rows := by
      refine List.filter_eq_self.mpr ?_
      intro r hr
      simp [h4 r hr]
    rw [hfe, hload, hym]
  · rw [delete_budget, if_neg h3]
    have hfb : st.budgets.filter (fun b => !(budLabel b == selB)) = st.budgets := by
      refine List.filter_eq_self.mpr ?_
      intro bb hbb
      simp [h5 bb hbb]
    rw [hfb]
    simp only [saveLoaded]
    rw [hload, hym]

/-- C5 witness: the amended no-op behaviour at a concrete one-row store and
a foreign identifier. -/
theorem claim_C5_witness :
    delete_expense ⟨⟨[⟨some ⟨2024, 3, 1, 0⟩, "Food", "", 100⟩], false⟩,
        [⟨"march", 2024, 200⟩]⟩ "zzz"
      = .ok ⟨⟨[⟨some ⟨2024, 3, 1, 0⟩, "Food", "", 100⟩], true⟩, [⟨"march", 2024, 200⟩]⟩
    ∧ delete_budget ⟨⟨[⟨some ⟨2024, 3, 1, 0⟩, "Food", "", 100⟩], false⟩,
        [⟨"march", 2024, 200⟩]⟩ "zzz"
      = .ok ⟨⟨[⟨some ⟨2024, 3, 1, 0⟩, "Food", "", 100⟩], true⟩, [⟨"march", 2024, 200⟩]⟩ :=
  claim_C5_amended ⟨⟨[⟨some ⟨2024, 3, 1, 0⟩, "Food", "", 100⟩], false⟩,
    [⟨"march", 2024, 200⟩]⟩ "zzz" "zzz" (by decide) (by decide) (by decide)
    (by decide) (by decide)

/-- C6 counterexample: the label delete_expense computes renders the amount
with Python's plain float formatting (`₹1500.0`), not the two-decimal
thousands-separated currency format the claim asserts (`₹1,500.00`);
deleting by the spec-format label removes nothing. -/
theorem claim_C6_ce :
    expLabel ⟨⟨2024, 3, 1, 0⟩, "Food", "", 1500, "2024-03"⟩
        = "2024-03-01 | Food |  | ₹1500.0"
    ∧ specExpLabel ⟨⟨2024, 3, 1, 0⟩, "Food", "", 1500, "2024-03"⟩
        = "2024-03-01 | Food |  | ₹1,500.00"
    ∧ delete_expense ⟨⟨[⟨some ⟨2024, 3, 1, 0⟩, "Food", "", 1500⟩], true⟩, []⟩
        "2024-03-01 | Food |  | ₹1,500.00"
      = .ok ⟨⟨[⟨some ⟨2024, 3, 1, 0⟩, "Food", "", 1500⟩], true⟩, []⟩ := by
  decide

/-- C6 (amended): delete_expense labels each row by concatenating the
formatted date, category, description and `₹` plus the plain float
rendering of the amount with the ` | ` separator, and removes every row
(all duplicates) whose label equals the identifier, keeping every other
parseable row. -/
theorem claim_C6_amended : ∀ (st st' : Store) (sel : String),
    (∀ r ∈ st.expenses.rows, r.date.isSome = true) →
    delete_expense st sel = .ok st' →
    (∀ raw ∈ st'.expenses.rows, rawExpLabel raw ≠ some sel)
    ∧ (∀ raw ∈ st.expenses.rows, rawExpLabel raw ≠ some sel →
        raw ∈ st'.expenses.rows) := by
  intro st st' sel hall hdel
  by_cases h0 : st.expenses.rows = []
  · have hc : (load_expenses st.expenses).dateConverted = false := by
      rw [load_dateConverted, if_pos h0]
    rw [delete_expense] at hdel
    rw [hc] at hdel
    simp at hdel
  · have hc : (load_expenses st.expenses).dateConverted = true := by
      rw [load_dateConverted, if_neg h0]
    rw [delete_expense, if_pos hc] at hdel
    injection hdel with hdel
    constructor
    · intro raw hraw
      rw [← hdel] at hraw
      rcases List.mem_map.mp hraw with ⟨r, hrf, rfl⟩
      rcases List.mem_filter.mp hrf with ⟨_, hlab⟩
      rw [rawExpLabel_save]
      intro hcontra
      rw [Option.some.injEq] at hcontra
      simp [hcontra] at hlab
    · intro raw hmem hlab
      obtain ⟨t, ht⟩ := Option.isSome_iff_exists.mp (hall raw hmem)
      have hparse : parseRow raw = some ⟨t, raw.category, raw.description, raw.amount, ymStr t⟩ := by
        simp [parseRow, ht]
      have hsave : saveExpRow ⟨t, raw.category, raw.description, raw.amount, ymStr t⟩ = raw := by
        cases raw
        cases ht
        rfl
      have hlrow : (⟨t, raw.category, raw.description, raw.amount, ymStr t⟩ : ExpRow)
          ∈ (load_expenses st.expenses).rows := by
        rw [load_rows_of_ne h0]
        exact List.mem_filterMap.mpr ⟨raw, hmem, hparse⟩
      have hlabel : expLabel (⟨t, raw.category, raw.description, raw.amount, ymStr t⟩ : ExpRow) ≠ sel := by
        intro hcontra
        apply hlab
        rw [← hsave, rawExpLabel_save, hcontra]
      rw [← hdel]
      refine List.mem_map.mpr ⟨_, List.mem_filter.mpr ⟨hlrow, ?_⟩, hsave⟩
      simp [hlabel]

/-- C6 witness: from a concrete store holding two identical rows and a
third distinct one, deleting the shared label removes both duplicates and
keeps the third row. -/
theorem claim_C6_witness :
    delete_expense ⟨⟨[⟨some ⟨2024, 3, 1, 0⟩, "Food", "", 1500⟩,
        ⟨some ⟨2024, 3, 1, 0⟩, "Food", "", 1500⟩,
        ⟨some ⟨2024, 3, 2, 0⟩, "Bills", "", 20⟩], true⟩, []⟩
        "2024-03-01 | Food |  | ₹1500.0"
      = .ok ⟨⟨[⟨some ⟨2024, 3, 2, 0⟩, "Bills", "", 20⟩], true⟩, []⟩
    ∧ (∀ raw ∈ (⟨⟨[⟨some ⟨2024, 3, 2, 0⟩, "Bills", "", 20⟩], true⟩, []⟩ : Store).expenses.rows,
        rawExpLabel raw ≠ some "2024-03-01 | Food |  | ₹1500.0")
    ∧ (⟨some ⟨2024, 3, 2, 0⟩, "Bills", "", 20⟩ : RawExpRow)
        ∈ (⟨⟨[⟨some ⟨2024, 3, 2, 0⟩, "Bills", "", 20⟩], true⟩, []⟩ : Store).expenses.rows := by
  refine ⟨by decide, ?_, ?_⟩
  · exact (claim_C6_amended ⟨⟨[⟨some ⟨2024, 3, 1, 0⟩, "Food", "", 1500⟩,
      ⟨some ⟨2024, 3, 1, 0⟩, "Food", "", 1500⟩,
      ⟨some ⟨2024, 3, 2, 0⟩, "Bills", "", 20⟩], true⟩, []⟩
      ⟨⟨[⟨some ⟨2024, 3, 2, 0⟩, "Bills", "", 20⟩], true⟩, []⟩
      "2024-03-01 | Food |  | ₹1500.0" (by decide) (by decide)).1
  · exact (claim_C6_amended ⟨⟨[⟨some ⟨2024, 3, 1, 0⟩, "Food", "", 1500⟩,
      ⟨some ⟨2024, 3, 1, 0⟩, "Food", "", 1500⟩,
      ⟨some ⟨2024, 3, 2, 0⟩, "Bills", "", 20⟩], true⟩, []⟩
      ⟨⟨[⟨some ⟨2024, 3, 2, 0⟩, "Bills", "", 20⟩], true⟩, []⟩
      "2024-03-01 | Food |  | ₹1500.0" (by decide) (by decide)).2
      ⟨some ⟨2024, 3, 2, 0⟩, "Bills", "", 20⟩ (by decide) (by decide)

/-! Lemmas about the amount-descending sort used by the daily view. -/

theorem perm_insertAmtDesc (r : ExpRow) (l : List ExpRow) :
    (insertAmtDesc r l).Perm (r :: l) := by
  induction l with
  | nil => exact List.Perm.refl _
  | cons x xs ih =>
    rw [insertAmtDesc]
    by_cases h : r.amount ≤ x.amount
    · rw [if_pos h]
      exact ((ih.cons x).trans (List.Perm.swap r x xs))
    · rw [if_neg h]

theorem perm_sortAmtDesc (l : List ExpRow) : (sortAmtDesc l).Perm l := by
  induction l with
  | nil => exact List.Perm.refl _
  | cons x xs ih =>
    rw [sortAmtDesc]
    exact (perm_insertAmtDesc x (sortAmtDesc xs)).trans (ih.cons x)

theorem mem_insertAmtDesc {a r : ExpRow} {l : List ExpRow} :
    a ∈ insertAmtDesc r l ↔ a = r ∨ a ∈ l :=
  ⟨fun h => (perm_insertAmtDesc r l).subset h |> List.mem_cons.mp,
   fun h => (perm_insertAmtDesc r l).symm.subset (List.mem_cons.mpr h)⟩

theorem sorted_insertAmtDesc (r : ExpRow) (l : List ExpRow)
    (h : List.Sorted (fun a b : ExpRow => b.amount ≤ a.amount) l) :
    List.Sorted (fun a b : ExpRow => b.amount ≤ a.amount) (insertAmtDesc r l) := by
  induction l with
  | nil => simp [insertAmtDesc]
  | cons x xs ih =>
    rw [insertAmtDesc]
    by_cases hle : r.amount ≤ x.amount
    · rw [if_pos hle]
      rw [List.sorted_cons] at h ⊢
      refine ⟨?_, ih h.2⟩
      intro b hb
      rcases mem_insertAmtDesc.mp hb with rfl | hb'
      · exact hle
      · exact h.1 b hb'
    · rw [if_neg hle]
      rw [List.sorted_cons] at h ⊢
      refine ⟨?_, List.sorted_cons.mpr h⟩
      intro b hb
      rcases List.mem_cons.mp hb with rfl | hb'
      · exact le_of_lt (lt_of_not_le hle)
      · exact le_trans (h.1 b hb') (le_of_lt (lt_of_not_le hle))

theorem sorted_sortAmtDesc (l : List ExpRow) :
    List.Sorted (fun a b : ExpRow => b.amount ≤ a.amount) (sortAmtDesc l) := by
  induction l with
  | nil => simp [sortAmtDesc]
  | cons x xs ih => exact sorted_insertAmtDesc x (sortAmtDesc xs) ih

/-- C7 counterexample: a row whose timestamp is noon of 2024-03-01 has
exactly the requested calendar day, yet daily_view(2024-03-01) excludes it
— the code compares full timestamps against midnight of the picked date,
not calendar days. -/
theorem claim_C7_ce :
    ((⟨⟨2024, 3, 1, 43200⟩, "Food", "", 100, "2024-03"⟩ : ExpRow).date.y = 2024
      ∧ (⟨⟨2024, 3, 1, 43200⟩, "Food", "", 100, "2024-03"⟩ : ExpRow).date.m = 3
      ∧ (⟨⟨2024, 3, 1, 43200⟩, "Food", "", 100, "2024-03"⟩ : ExpRow).date.d = 1)
    ∧ daily_view [⟨⟨2024, 3, 1, 43200⟩, "Food", "", 100, "2024-03"⟩] ⟨2024, 3, 1, 0⟩
      = ([], 0) := by
  decide

/-- C7 (amended): daily_view keeps exactly the rows whose full timestamp
equals the picked date at midnight (a row carrying a nonzero time
component is excluded even on the matching day), sorted by amount
descending, together with the sum of their amounts; on the example rows —
which carry midnight timestamps — daily_view(2024-03-01) returns the one
100-amount row with total 100 and daily_view(2024-03-02) returns the empty
set with total 0. -/
theorem claim_C7_amended :
    (∀ (es : List ExpRow) (d : Timestamp),
      (daily_view es d).1.Perm (es.filter fun r => decide (r.date = d))
      ∧ List.Sorted (fun a b : ExpRow => b.amount ≤ a.amount) (daily_view es d).1
      ∧ (daily_view es d).2
          = ((es.filter fun r => decide (r.date = d)).map (·.amount)).sum)
    ∧ daily_view [⟨⟨2024, 3, 1, 0⟩, "Food", "", 100, "2024-03"⟩,
        ⟨⟨2024, 3, 15, 0⟩, "Transport", "", 50, "2024-03"⟩] ⟨2024, 3, 1, 0⟩
      = ([⟨⟨2024, 3, 1, 0⟩, "Food", "", 100, "2024-03"⟩], 100)
    ∧ daily_view [⟨⟨2024, 3, 1, 0⟩, "Food", "", 100, "2024-03"⟩,
        ⟨⟨2024, 3, 15, 0⟩, "Transport", "", 50, "2024-03"⟩] ⟨2024, 3, 2, 0⟩
      = ([], 0) := by
  refine ⟨fun es d => ⟨perm_sortAmtDesc _, sorted_sortAmtDesc _, rfl⟩, ?_, by decide⟩
  have hf : ([⟨⟨2024, 3, 1, 0⟩, "Food", "", 100, "2024-03"⟩,
      ⟨⟨2024, 3, 15, 0⟩, "Transport", "", 50, "2024-03"⟩] : List ExpRow).filter
      (fun r => decide (r.date = (⟨2024, 3, 1, 0⟩ : Timestamp)))
      = [⟨⟨2024, 3, 1, 0⟩, "Food", "", 100, "2024-03"⟩] := by decide
  simp [daily_view, hf, sortAmtDesc, insertAmtDesc]

/-- C3 counterexample: add_expense accepts a negative amount — float(-5)
succeeds, no sign check exists — and appends the negative row, while the
claim requires a ValidationError. -/
theorem claim_C3_ce :
    add_expense ⟨⟨[], false⟩, []⟩ (some ⟨2024, 3, 1, 0⟩) "Food" "" (some (-5))
      = .ok ⟨⟨[⟨some ⟨2024, 3, 1, 0⟩, "Food", "", -5⟩], false⟩, []⟩ := by
  decide

/-- C3 (amended): add_expense fails exactly when the amount is not
coercible to a number or the date is unparseable — the sign of the amount
is never checked, so negative amounts are accepted — and on any failure
the stored state is unchanged, the exception being raised before any
save. -/
theorem claim_C3_amended : ∀ (st : Store) (d : Option Timestamp) (c ds : String)
    (a : Option ℚ),
    ((∃ e, add_expense st d c ds a = .error e) ↔ (d = none ∨ a = none))
    ∧ ((d = none ∨ a = none) → runAdd st d c ds a = st) := by
  intro st d c ds a
  cases d <;> cases a <;> simp [add_expense, runAdd]

/-- C3 witness: the amended behaviour at a concrete store with an
unparseable date input: the call errors and the store is unchanged. -/
theorem claim_C3_witness :
    (∃ e, add_expense ⟨⟨[⟨some ⟨2024, 3, 1, 0⟩, "Food", "", 100⟩], false⟩, []⟩
        none "Food" "" (some 5) = .error e)
    ∧ runAdd ⟨⟨[⟨some ⟨2024, 3, 1, 0⟩, "Food", "", 100⟩], false⟩, []⟩
        none "Food" "" (some 5)
      = ⟨⟨[⟨some ⟨2024, 3, 1, 0⟩, "Food", "", 100⟩], false⟩, []⟩ :=
  ⟨(claim_C3_amended ⟨⟨[⟨some ⟨2024, 3, 1, 0⟩, "Food", "", 100⟩], false⟩, []⟩
      none "Food" "" (some 5)).1.mpr (Or.inl rfl),
   (claim_C3_amended ⟨⟨[⟨some ⟨2024, 3, 1, 0⟩, "Food", "", 100⟩], false⟩, []⟩
      none "Food" "" (some 5)).2 (Or.inl rfl)⟩

/-- C4: current_period_summary reports remaining = budget − spent always,
reports budget 0 when no budget row matches, and on the example rows —
(2024-03-01, Food, "", 100), (2024-03-15, Transport, "", 50) with budget
(march, 2024, 200) and today in March 2024 — returns (200, 150, 50). -/
theorem claim_C4 :
    (∀ (es : List ExpRow) (bs : List BudgetRow) (t : Timestamp),
      (current_period_summary es bs t).2.2
        = (current_period_summary es bs t).1 - (current_period_summary es bs t).2.1)
    ∧ (∀ (es : List ExpRow) (t : Timestamp), (current_period_summary es [] t).1 = 0)
    ∧ current_period_summary [⟨⟨2024, 3, 1, 0⟩, "Food", "", 100, "2024-03"⟩,
        ⟨⟨2024, 3, 15, 0⟩, "Transport", "", 50, "2024-03"⟩]
        [⟨"march", 2024, 200⟩] ⟨2024, 3, 20, 0⟩ = (200, 150, 50) := by
  refine ⟨fun es bs t => by simp [current_period_summary],
    fun es t => by simp [current_period_summary], ?_⟩
  have h1 : ([⟨"march", 2024, 200⟩] : List BudgetRow).filter (fun b =>
      decide (b.month = strLower (monthName (Timestamp.mk 2024 3 20 0).m)
        ∧ b.year = ((Timestamp.mk 2024 3 20 0).y : Int))) = [⟨"march", 2024, 200⟩] := by
    decide
  have h2 : ([⟨⟨2024, 3, 1, 0⟩, "Food", "", 100, "2024-03"⟩,
      ⟨⟨2024, 3, 15, 0⟩, "Transport", "", 50, "2024-03"⟩] : List ExpRow).filter (fun r =>
      decide (monthName r.date.m = monthName (Timestamp.mk 2024 3 20 0).m
        ∧ r.date.y = (Timestamp.mk 2024 3 20 0).y))
      = [⟨⟨2024, 3, 1, 0⟩, "Food", "", 100, "2024-03"⟩,
        ⟨⟨2024, 3, 15, 0⟩, "Transport", "", 50, "2024-03"⟩] := by decide
  simp only [current_period_summary, h1, h2]
  norm_num

/-! Lemmas about the budget upsert scan. -/

theorem updFirst_cons_pos {mc : String} {y : Int} {v : ℚ} {b : BudgetRow}
    {bs : List BudgetRow} (h : normMonth b.month = mc ∧ b.year = y) :
    updFirst mc y v (b :: bs) = some ({ b with budget := v } :: bs) := by
  rw [updFirst, if_pos h]

theorem updFirst_cons_neg {mc : String} {y : Int} {v : ℚ} {b : BudgetRow}
    {bs : List BudgetRow} (h : ¬(normMonth b.month = mc ∧ b.year = y)) :
    updFirst mc y v (b :: bs) = (updFirst mc y v bs).map (b :: ·) := by
  rw [updFirst, if_neg h]

theorem upsertBudgets_cons_pos {mc : String} {y : Int} {v : ℚ} {b : BudgetRow}
    {bs : List BudgetRow} (h : normMonth b.month = mc ∧ b.year = y) :
    upsertBudgets mc y v (b :: bs) = { b with budget := v } :: bs := by
  rw [upsertBudgets, updFirst_cons_pos h]

theorem upsertBudgets_cons_neg {mc : String} {y : Int} {v : ℚ} {b : BudgetRow}
    {bs : List BudgetRow} (h : ¬(normMonth b.month = mc ∧ b.year = y)) :
    upsertBudgets mc y v (b :: bs) = b :: upsertBudgets mc y v bs := by
  rw [upsertBudgets, updFirst_cons_neg h]
  cases hu : updFirst mc y v bs with
  | none => simp [upsertBudgets, hu]
  | some bs' => simp [upsertBudgets, hu]

theorem upsert2 (mc : String) (y : Int) (v1 v2 : ℚ) (hself : normMonth mc = mc) :
    ∀ bs : List BudgetRow,
    (bs.filter fun b => decide (normMonth b.month = mc ∧ b.year = y)).length ≤ 1 →
    ((upsertBudgets mc y v2 (upsertBudgets mc y v1 bs)).filter
      fun b => decide (normMonth b.month = mc ∧ b.year = y)).map (·.budget) = [v2] := by
  intro bs
  induction bs with
  | nil =>
    intro _
    simp [upsertBudgets, updFirst, hself, List.filter_cons]
  | cons b bs ih =>
    intro h
    by_cases hb : normMonth b.month = mc ∧ b.year = y
    · have hbT : (decide (normMonth b.month = mc ∧ b.year = y)) = true := by
        simpa using hb
      rw [upsertBudgets_cons_pos hb]
      have hb1 : normMonth ({ b with budget := v1 } : BudgetRow).month = mc
          ∧ ({ b with budget := v1 } : BudgetRow).year = y := hb
      rw [upsertBudgets_cons_pos hb1]
      have hfe : bs.filter (fun b => decide (normMonth b.month = mc ∧ b.year = y)) = [] := by
        rw [List.filter_cons, if_pos hbT] at h
        simp only [List.length_cons] at h
        exact List.eq_nil_of_length_eq_zero (by omega)
      rw [List.filter_cons, if_pos (by simpa using hb1), hfe]
      rfl
    · have hbF : (decide (normMonth b.month = mc ∧ b.year = y)) = false := by
        simpa using hb
      rw [upsertBudgets_cons_neg hb, upsertBudgets_cons_neg hb]
      rw [List.filter_cons, if_neg (by simp [hbF])]
      apply ih
      rwa [List.filter_cons, if_neg (by simp [hbF])] at h

/-- C2 counterexample: when the starting Budgets table already holds two
rows normalizing to (march, 2024), the two upserts update only the first,
leaving two matching rows (the claim quantifies over every starting
table and demands exactly one). -/
theorem claim_C2_ce :
    ((add_or_update_budget (add_or_update_budget
        ⟨⟨[], false⟩, [⟨"march", 2024, 10⟩, ⟨"march", 2024, 20⟩]⟩ "march" 2024 100)
        "March" 2024 150).budgets
      = [⟨"march", 2024, 150⟩, ⟨"march", 2024, 20⟩])
    ∧ (((add_or_update_budget (add_or_update_budget
        ⟨⟨[], false⟩, [⟨"march", 2024, 10⟩, ⟨"march", 2024, 20⟩]⟩ "march" 2024 100)
        "March" 2024 150).budgets).filter
      (fun b => decide (normMonth b.month = "march" ∧ b.year = (2024 : Int)))).length = 2 := by
  decide

/-- C2 (amended): starting from any Budgets table with at most one row
normalizing to (march, 2024), add_or_update_budget("march", 2024, 100)
followed by add_or_update_budget("March", 2024, 150) leaves exactly one
row normalizing to (march, 2024) and its budget is 150 — the month is
normalized to lowercase trimmed text, the first matching row in storage
order is overwritten, and a new row is appended when none matches. -/
theorem claim_C2_amended : ∀ st : Store,
    (st.budgets.filter fun b =>
      decide (normMonth b.month = "march" ∧ b.year = (2024 : Int))).length ≤ 1 →
    (((add_or_update_budget (add_or_update_budget st "march" 2024 100)
        "March" 2024 150).budgets).filter fun b =>
      decide (normMonth b.month = "march" ∧ b.year = (2024 : Int))).map (·.budget)
      = [150] := by
  intro st h
  have h1 : normMonth "march" = "march" := by decide
  have h2 : normMonth "March" = "march" := by decide
  show ((upsertBudgets (normMonth "March") 2024 150
      (upsertBudgets (normMonth "march") 2024 100 st.budgets)).filter _).map _ = _
  rw [h1, h2]
  exact upsert2 "march" 2024 100 150 h1 st.budgets h

/-- C2 witness: the two upserts on the empty Budgets table leave exactly
the row (march, 2024, 150). -/
theorem claim_C2_witness :
    (((add_or_update_budget (add_or_update_budget ⟨⟨[], false⟩, []⟩ "march" 2024 100)
        "March" 2024 150).budgets).filter fun b =>
      decide (normMonth b.month = "march" ∧ b.year = (2024 : Int))).map (·.budget)
      = [150] :=
  claim_C2_amended ⟨⟨[], false⟩, []⟩ (by decide)

/-! Lemmas about the top-category scan of the monthly overview. -/

theorem le_pickTop (l : List ExpRow) : ∀ (cs : List String) (best : String),
    catTotal l best ≤ catTotal l (pickTop l best cs) := by
  intro cs
  induction cs with
  | nil =>
    intro best
    rw [pickTop]
  | cons c cs ih =>
    intro best
    rw [pickTop]
    by_cases h : catTotal l best < catTotal l c
    · rw [if_pos h]
      exact le_trans (le_of_lt h) (ih c)
    · rw [if_neg h]
      exact ih best

theorem mem_le_pickTop (l : List ExpRow) : ∀ (cs : List String) (best c : String),
    c ∈ cs → catTotal l c ≤ catTotal l (pickTop l best cs) := by
  intro cs
  induction cs with
  | nil =>
    intro best c hc
    simp at hc
  | cons c0 cs ih =>
    intro best c hc
    rw [pickTop]
    rcases List.mem_cons.mp hc with rfl | hc'
    · by_cases h : catTotal l best < catTotal l c
      · rw [if_pos h]
        exact le_pickTop l cs c
      · rw [if_neg h]
        exact le_trans (not_lt.mp h) (le_pickTop l cs best)
    · exact ih _ c hc'

theorem mem_insertStr {a s : String} {xs : List String} :
    a ∈ insertStr s xs ↔ a = s ∨ a ∈ xs := by
  induction xs with
  | nil => simp [insertStr]
  | cons x xs ih =>
    rw [insertStr]
    by_cases h : strLt s x
    · rw [if_pos h]
      simp [List.mem_cons]
    · rw [if_neg h]
      simp [List.mem_cons, ih]
      tauto

theorem mem_sortStrs {a : String} {xs : List String} : a ∈ sortStrs xs ↔ a ∈ xs := by
  induction xs with
  | nil => simp [sortStrs]
  | cons x xs ih =>
    rw [sortStrs, mem_insertStr, ih]
    simp [List.mem_cons]

theorem mem_sortedCats {l : List ExpRow} {r : ExpRow} (hr : r ∈ l) :
    r.category ∈ sortedCats l := by
  rw [sortedCats, mem_sortStrs, List.mem_dedup]
  exact List.mem_map_of_mem _ hr

theorem catTotal_le_top {l : List ExpRow} {r : ExpRow} (hr : r ∈ l) :
    catTotal l r.category ≤ catTotal l (topCategory l) := by
  have hmem := mem_sortedCats hr
  rw [topCategory]
  split
  · next heq =>
    rw [heq] at hmem
    simp at hmem
  · next c cs heq =>
    rw [heq] at hmem
    rcases List.mem_cons.mp hmem with he | hmem'
    · rw [he]
      exact le_pickTop l cs c
    · exact mem_le_pickTop l cs c r.category hmem'

/-- C8: whenever the monthly overview renders (the filtered set is
non-empty), the reported top category attains the maximal total amount
among the categories of the filtered rows, the budget-vs-actual table has
one row per selected period with remaining = budget − spent (budget 0 when
no budget row matches), and on the spec's example rows with selection
["2024-03"] it reports top category Food with total 150, spent 180 and
remaining = budget − 180. -/
theorem claim_C8 :
    (∀ (df : List ExpRow) (bs : List BudgetRow) (sel : List String)
      (top : String) (rows : List BVA),
      monthly_overview df bs sel = some (top, rows) →
      (∀ r ∈ df.filter (fun r => decide (r.yearMonth ∈ sel)),
        catTotal (df.filter (fun r => decide (r.yearMonth ∈ sel))) r.category
          ≤ catTotal (df.filter (fun r => decide (r.yearMonth ∈ sel))) top)
      ∧ rows = sel.map (bvaRow bs (df.filter (fun r => decide (r.yearMonth ∈ sel))))
      ∧ (∀ x ∈ rows, x.remaining = x.budget - x.spent))
    ∧ (∀ B : ℚ, monthly_overview ex8 [⟨"march", 2024, B⟩] ["2024-03"]
        = some ("Food", [⟨"2024-03", B, 180, B - 180⟩]))
    ∧ catTotal ex8 "Food" = 150
    ∧ monthly_overview ex8 [] ["2024-03"]
        = some ("Food", [⟨"2024-03", 0, 180, 0 - 180⟩]) := by
  have hfil : ex8.filter (fun r => decide (r.yearMonth ∈ (["2024-03"] : List String)))
      = ex8 := by decide
  have hs : sortedCats ex8 = ["Food", "Transport"] := by decide
  have hF : catTotal ex8 "Food" = 150 := by
    simp +decide [catTotal, ex8, List.filter_cons]
    norm_num
  have hT : catTotal ex8 "Transport" = 30 := by
    simp +decide [catTotal, ex8, List.filter_cons]
  have htop : topCategory ex8 = "Food" := by
    have hp : pickTop ex8 "Food" ["Transport"] = "Food" := by
      simp only [pickTop]
      rw [hF, hT]
      rw [if_neg (by norm_num)]
    rw [topCategory, hs]
    exact hp
  have hspent : ymSpent ex8 "2024-03" = 180 := by
    simp +decide [ymSpent, ex8, List.filter_cons]
    norm_num
  have hym : monthFromYm "2024-03" = some (2024, "march") := by decide
  refine ⟨?_, ?_, hF, ?_⟩
  · intro df bs sel top rows h
    by_cases hfe : df.filter (fun r => decide (r.yearMonth ∈ sel)) = []
    · rw [monthly_overview] at h
      simp only [hfe, if_pos] at h
      exact absurd h (by simp)
    · rw [monthly_overview] at h
      rw [if_neg hfe] at h
      rw [Option.some.injEq, Prod.mk.injEq] at h
      obtain ⟨htop', hrows⟩ := h
      refine ⟨?_, hrows.symm, ?_⟩
      · intro r hrmem
        rw [← htop']
        exact catTotal_le_top hrmem
      · intro x hx
        rw [← hrows] at hx
        rcases List.mem_map.mp hx with ⟨ym, _, rfl⟩
        rw [bvaRow]
        cases monthFromYm ym with
        | none => norm_num
        | some p => rfl
  · intro B
    have hlook : budgetLookup [⟨"march", 2024, B⟩] "march" 2024 = B := by
      simp [budgetLookup, List.filter_cons]
    rw [monthly_overview]
    simp only [hfil]
    rw [if_neg (by decide : ¬(ex8 = []))]
    rw [htop]
    simp only [List.map, bvaRow, hym, hlook, hspent]
  · have hlook0 : budgetLookup [] "march" 2024 = 0 := rfl
    rw [monthly_overview]
    simp only [hfil]
    rw [if_neg (by decide : ¬(ex8 = []))]
    rw [htop]
    simp only [List.map, bvaRow, hym, hlook0, hspent]

/-- C8 witness: the general conclusions instantiated at the example
overview, whose rendering hypothesis is discharged by the example
computation itself. -/
theorem claim_C8_witness :
    ∀ x ∈ [(⟨"2024-03", (0 : ℚ), 180, 0 - 180⟩ : BVA)],
      x.remaining = x.budget - x.spent :=
  fun x hx =>
    ((claim_C8.1 ex8 [] ["2024-03"] "Food" [⟨"2024-03", 0, 180, 0 - 180⟩]
      claim_C8.2.2.2).2.2) x hx

end ExpenseTracker
